import Mathlib

/-!
# Time-slot booking service: shallow embedding and verification

Shallow embedding of the booking core of the time-slot booking server
(`internal/services/booking_service.go`, the `TimeSlotService` in the
services file, the bun models and the table DDL in the db package).

Modelling conventions:
* UUIDs are modelled as `Nat`; `gen_random_uuid()` freshness is a `nextId`
  counter on the database state.
* Timestamps (`TIMESTAMP`, `time.Time`) are modelled as `Nat`; `NOW()` is a
  monotone `now` counter on the database state.
* `DECIMAL(10,2)` prices (`*float64` in Go) are modelled as `Option Int`
  (cents): the booking core only copies them, never computes with them.
* Booking `status` is a `String`, as in the Go code and the schema
  (`VARCHAR`, written as literals `"confirmed"` / `"cancelled"`, queried
  with `status IN ('pending', 'confirmed')`).
* A bun `Scan` into a single model returns the first matching row or a
  no-rows error: modelled with `List.find?`; `Count` is `List.filter` +
  `length`; an `UPDATE ... WHERE` is a `List.map` that rewrites matching
  rows.  Go `int` comparisons against counts are done in `Int`.
* `RunInTx` rollback is implicit: an operation that fails returns no new
  state, so the caller keeps the unchanged previous state.
* `updated_at` is write-only in every modelled operation (set by
  `Set("updated_at = NOW()")`, never read), so it is omitted from the
  booking record.
-/

/-- `time_slots` row (`models.TimeSlot`, `createTimeSlotsTable`). -/
structure TimeSlot where
  id : Nat
  resourceId : Nat
  startTime : Nat
  endTime : Nat
  capacity : Int
  isAvailable : Bool
  price : Option Int
  createdAt : Nat
deriving DecidableEq, Repr

/-- `bookings` row (`models.Booking`, `createBookingsTable`).  Note: the
table has no `start_time`/`end_time` columns; a booking's window is the one
of its time slot. -/
structure Booking where
  id : Nat
  userId : Nat
  resourceId : Nat
  timeSlotId : Nat
  status : String
  notes : String
  totalAmount : Option Int
  createdAt : Nat
deriving DecidableEq, Repr

/-- Database state: the two tables the booking core touches, plus the
freshness counters for `gen_random_uuid()` and `NOW()`. -/
structure DB where
  timeSlots : List TimeSlot
  bookings : List Booking
  nextId : Nat
  now : Nat
deriving DecidableEq, Repr

/-- `status IN ('pending', 'confirmed')`. -/
def isActive (b : Booking) : Bool :=
  b.status == "pending" || b.status == "confirmed"

/-- Row filter of `Create` step 1: `id = ? AND resource_id = ? AND
is_available = true`. -/
def slotPred (resourceId timeSlotId : Nat) (t : TimeSlot) : Bool :=
  t.id == timeSlotId && t.resourceId == resourceId && t.isAvailable

/-- Row filter shared by the existing-booking check and the capacity count:
`time_slot_id = ? AND status IN ('pending', 'confirmed')`. -/
def activeFor (timeSlotId : Nat) (b : Booking) : Bool :=
  b.timeSlotId == timeSlotId && isActive b

/-- Active bookings of a slot. -/
def activeBookings (db : DB) (timeSlotId : Nat) : List Booking :=
  db.bookings.filter (activeFor timeSlotId)

/-- `SELECT COUNT(*) FROM bookings WHERE time_slot_id = ? AND status IN
('pending', 'confirmed')`. -/
def activeCount (db : DB) (timeSlotId : Nat) : Nat :=
  (activeBookings db timeSlotId).length

/-- Errors of `BookingService.Create` (the wrapped `fmt.Errorf` messages). -/
inductive CreateError where
  /-- "time slot not found or unavailable" -/
  | slotNotFoundOrUnavailable
  /-- "time slot is already booked" -/
  | alreadyBooked
  /-- "time slot is at full capacity" -/
  | capacityFull
  /-- the post-commit re-read found no row -/
  | rereadNoRows
deriving DecidableEq, Repr

/-- Error of `BookingService.Cancel`: "booking not found". -/
inductive CancelError where
  | notFound
deriving DecidableEq, Repr

/-- The booking `Create` inserts: status `confirmed`, total amount copied
from the slot's price, id and created-at from the store defaults. -/
def newBookingOf (db : DB) (userId resourceId timeSlotId : Nat)
    (notes : String) (slot : TimeSlot) : Booking :=
  { id := db.nextId
    userId := userId
    resourceId := resourceId
    timeSlotId := timeSlotId
    status := "confirmed"
    notes := notes
    totalAmount := slot.price
    createdAt := db.now }

/-- Row rewrite of `UPDATE time_slots SET is_available = false WHERE id = ?`. -/
def deactivateRow (timeSlotId : Nat) (t : TimeSlot) : TimeSlot :=
  if t.id == timeSlotId then { t with isAvailable := false } else t

/-- Row rewrite of `UPDATE time_slots SET is_available = true WHERE id = ?`. -/
def reactivateRow (timeSlotId : Nat) (t : TimeSlot) : TimeSlot :=
  if t.id == timeSlotId then { t with isAvailable := true } else t

/-- Row rewrite of `UPDATE bookings SET status = 'cancelled' WHERE id = ?`. -/
def cancelRow (bookingId : Nat) (b : Booking) : Booking :=
  if b.id == bookingId then { b with status := "cancelled" } else b

namespace BookingService

/-- The transaction body of `BookingService.Create`
(booking_service.go:25-99): load the slot by id, resource and
availability; fail if any active booking for the slot exists ("Check for
overlapping bookings"); count active bookings and fail at capacity; insert
the confirmed booking; flip `is_available` to false when the new count
reaches capacity (the insert leaves `time_slots` untouched, so the update
reads the same slot rows the transaction started with). -/
def createTx (db : DB) (userId resourceId timeSlotId : Nat)
    (notes : String) : Except CreateError DB :=
  match db.timeSlots.find? (slotPred resourceId timeSlotId) with
  | none => .error .slotNotFoundOrUnavailable
  | some timeSlot =>
    match db.bookings.find? (activeFor timeSlotId) with
    | some _ => .error .alreadyBooked
    | none =>
      if timeSlot.capacity ≤ (activeCount db timeSlotId : Int) then
        .error .capacityFull
      else if timeSlot.capacity ≤ (activeCount db timeSlotId : Int) + 1 then
        .ok { db with
              timeSlots := db.timeSlots.map (deactivateRow timeSlotId)
              bookings := db.bookings ++ [newBookingOf db userId resourceId timeSlotId notes timeSlot]
              nextId := db.nextId + 1
              now := db.now + 1 }
      else
        .ok { db with
              bookings := db.bookings ++ [newBookingOf db userId resourceId timeSlotId notes timeSlot]
              nextId := db.nextId + 1
              now := db.now + 1 }

/-- Row filter of the post-commit re-read (booking_service.go:107-114):
`user_id = ? AND resource_id = ? AND time_slot_id = ?`. -/
def rereadPred (userId resourceId timeSlotId : Nat) (b : Booking) : Bool :=
  b.userId == userId && b.resourceId == resourceId && b.timeSlotId == timeSlotId

/-- `ORDER BY created_at DESC LIMIT 1`: the row with the latest
`created_at` (keeping the earlier row on a tie, immaterial here because
inserts get strictly increasing timestamps). -/
def latestBooking : List Booking → Option Booking
  | [] => none
  | b :: bs =>
    match latestBooking bs with
    | none => some b
    | some c => if b.createdAt < c.createdAt then some c else some b

/-- `BookingService.Create` (booking_service.go:23-117): run the
transaction, then re-read the created booking after commit; a failing
transaction rolls back, so the caller's state is unchanged. -/
def Create (db : DB) (userId resourceId timeSlotId : Nat)
    (notes : String) : Except CreateError (DB × Booking) :=
  match createTx db userId resourceId timeSlotId notes with
  | .error e => .error e
  | .ok db2 =>
    match latestBooking (db2.bookings.filter (rereadPred userId resourceId timeSlotId)) with
    | some b => .ok (db2, b)
    | none => .error .rereadNoRows

/-- The re-enable step of `Cancel` (booking_service.go:178-205): re-load
the slot (skipping the whole block when that select finds no row),
re-count the slot's active bookings — the transaction sees its own status
update — and flip `is_available` back to true when the count is below
capacity. -/
def cancelFinish (db1 : DB) (timeSlotId : Nat) : DB :=
  match db1.timeSlots.find? (fun t => t.id == timeSlotId) with
  | none => db1
  | some timeSlot =>
    if (activeCount db1 timeSlotId : Int) < timeSlot.capacity then
      { db1 with timeSlots := db1.timeSlots.map (reactivateRow timeSlotId) }
    else
      db1

/-- The state updates of a found `Cancel` (booking_service.go:166-207):
set the booking's status to `cancelled` (`UPDATE ... WHERE id = ?`), then
run the re-enable step for the booking's slot. -/
def cancelState (db : DB) (bookingId timeSlotId : Nat) : DB :=
  cancelFinish { db with bookings := db.bookings.map (cancelRow bookingId) } timeSlotId

/-- `BookingService.Cancel` (booking_service.go:152-209): load the booking
by id and user id (fail with not-found if absent), then apply the
cancellation updates for it within the transaction. -/
def Cancel (db : DB) (bookingId userId : Nat) : Except CancelError DB :=
  match db.bookings.find? (fun b => b.id == bookingId && b.userId == userId) with
  | none => .error .notFound
  | some booking => .ok (cancelState db bookingId booking.timeSlotId)

end BookingService

/-! ## Conflict detection

`BookingService.CheckConflicts` (booking_service.go:211-228) selects from
the `bookings` table with the filters `resource_id = ?`, `status IN
('pending','confirmed')`, `(start_time <= ? AND end_time > ?)` and
`(start_time < ? AND end_time >= ?)`.  The `bookings` table has no
`start_time` or `end_time` column (`models.Booking`, `createBookingsTable`
— a booking's window lives on its time slot), so the database rejects the
query with an undefined-column error and `Scan` returns that error. -/

/-- Store-side error for a query naming a column the table does not have. -/
inductive SqlError where
  | undefinedColumn
deriving DecidableEq, Repr

/-- The `Scan` inside `CheckConflicts`: always an undefined-column error,
because the filters reference `bookings.start_time` / `bookings.end_time`,
columns absent from the `bookings` table. -/
def checkConflictsScan (db : DB) (resourceId startTime endTime : Nat) :
    Except SqlError (List Booking) :=
  .error .undefinedColumn

namespace BookingService

/-- `BookingService.CheckConflicts` (booking_service.go:211-228): returns
`true` ("time slot conflicts with existing bookings") only when the scan
succeeded (`err == nil`) and found at least one row; any scan error is
swallowed and reported as no conflict. -/
def CheckConflicts (db : DB) (resourceId startTime endTime : Nat) : Bool :=
  match checkConflictsScan db resourceId startTime endTime with
  | .ok conflicts => conflicts.length > 0
  | .error _ => false

end BookingService

/-- Half-open window overlap as the spec states it: `[s1,e1)` and `[s2,e2)`
overlap iff `s1 < e2` and `s2 < e1`. -/
def windowsOverlap (s1 e1 s2 e2 : Nat) : Bool :=
  s1 < e2 && s2 < e1

/-- The window of a booking: the `start_time`/`end_time` of its time slot
(bookings carry no window of their own). -/
def bookingWindow (db : DB) (b : Booking) : Option (Nat × Nat) :=
  match db.timeSlots.find? (fun t => t.id == b.timeSlotId) with
  | some t => some (t.startTime, t.endTime)
  | none => none

/-- Spec-side conflict predicate: some active booking of the resource has a
window overlapping the proposed one. -/
def specHasConflict (db : DB) (resourceId startTime endTime : Nat) : Bool :=
  db.bookings.any fun b =>
    b.resourceId == resourceId && isActive b &&
      (match bookingWindow db b with
       | some (s2, e2) => windowsOverlap startTime endTime s2 e2
       | none => false)

/-! ## Time-slot service -/

namespace TimeSlotService

/-- `TimeSlotService.GetAvailable` (services file): slots of the resource
with `is_available = true`, `start_time >= startDate`, `end_time <=
endDate`, and a positive remaining capacity
(`capacity - COUNT(active bookings) > 0`), ordered by `start_time ASC`. -/
def GetAvailable (db : DB) (resourceId startDate endDate : Nat) :
    List TimeSlot :=
  List.insertionSort (fun a b => a.startTime ≤ b.startTime)
    (db.timeSlots.filter fun t =>
      t.resourceId == resourceId && t.isAvailable &&
        decide (startDate ≤ t.startTime) && decide (t.endTime ≤ endDate) &&
        decide (0 < t.capacity - (activeCount db t.id : Int)))

end TimeSlotService

/-- Errors a time-slot creation can produce.  `validationError` is the
spec's pre-store validation failure; `checkViolation` is the store
rejecting a row that violates `CONSTRAINT valid_time_range CHECK
(end_time > start_time)` (`createTimeSlotsTable`). -/
inductive TimeSlotCreateError where
  | validationError
  | checkViolation
deriving DecidableEq, Repr

/-- Insert into `time_slots`: the store enforces the table's
`valid_time_range` check constraint and rejects any row with
`end_time <= start_time`. -/
def insertTimeSlot (db : DB) (t : TimeSlot) :
    Except TimeSlotCreateError DB :=
  if t.startTime < t.endTime then
    .ok { db with timeSlots := db.timeSlots ++ [t], nextId := db.nextId + 1 }
  else
    .error .checkViolation

namespace TimeSlotService

/-- `TimeSlotService.Create` (services file): builds the slot record with
`is_available = true` and inserts it — there is no validation of the time
range before the insert reaches the store. -/
def Create (db : DB) (resourceId startTime endTime : Nat) (capacity : Int)
    (price : Option Int) : Except TimeSlotCreateError (DB × TimeSlot) :=
  let timeSlot : TimeSlot :=
    { id := db.nextId
      resourceId := resourceId
      startTime := startTime
      endTime := endTime
      capacity := capacity
      isAvailable := true
      price := price
      createdAt := db.now }
  match insertTimeSlot db timeSlot with
  | .ok db2 => .ok (db2, timeSlot)
  | .error e => .error e

/-- Modelled from the spec ("creating a TimeSlot with end_time ≤
start_time fails with ValidationError before reaching the store"): the
validating variant the spec describes, used only to compare against the
source's `Create`. -/
def CreateSpec (db : DB) (resourceId startTime endTime : Nat)
    (capacity : Int) (price : Option Int) :
    Except TimeSlotCreateError (DB × TimeSlot) :=
  if endTime ≤ startTime then
    .error .validationError
  else
    Create db resourceId startTime endTime capacity price

end TimeSlotService

/-! ## Example states

Concrete database states used to exercise the operations on the scenarios
the spec describes. -/

/-- A capacity-2 slot (id 1) of resource 1, window `[600, 660)`, available,
price 25.50 (2550 cents), with no bookings: the end-to-end scenario's
starting state. -/
def capTwoDB : DB :=
  { timeSlots := [{ id := 1, resourceId := 1, startTime := 600, endTime := 660,
                    capacity := 2, isAvailable := true, price := some 2550,
                    createdAt := 0 }]
    bookings := []
    nextId := 10
    now := 100 }

/-- The state after user 1's successful `Create` against `capTwoDB`. -/
def afterFirstCreate : DB :=
  match BookingService.Create capTwoDB 1 1 1 "" with
  | .ok (db1, _) => db1
  | .error _ => capTwoDB

/-- A resource-1 slot with window `[630, 690)` (10:30-11:30 in minutes) and
one confirmed booking of it: the state of the spec's overlap example. -/
def overlapDB : DB :=
  { timeSlots := [{ id := 2, resourceId := 1, startTime := 630, endTime := 690,
                    capacity := 1, isAvailable := false, price := none,
                    createdAt := 0 }]
    bookings := [{ id := 11, userId := 4, resourceId := 1, timeSlotId := 2,
                   status := "confirmed", notes := "", totalAmount := none,
                   createdAt := 1 }]
    nextId := 20
    now := 50 }

/-! ## Helper lemmas -/

/-- `find?` commutes with a map that does not change the predicate's
verdict. -/
theorem find?_map_of_pred_invariant {α : Type} (f : α → α) (p : α → Bool)
    (hp : ∀ x, p (f x) = p x) (l : List α) :
    (l.map f).find? p = (l.find? p).map f := by
  induction l with
  | nil => rfl
  | cons x xs ih =>
    simp only [List.map_cons, List.find?_cons, hp x]
    cases p x <;> simp [ih]

/-- Mapping a pointwise-idempotent function twice is the same as once. -/
theorem map_idem {α : Type} (f : α → α) (hf : ∀ x, f (f x) = f x)
    (l : List α) : (l.map f).map f = l.map f := by
  rw [List.map_map]
  exact List.map_congr_left fun x _ => hf x

/-- A map that can only turn the predicate off does not grow the filtered
length. -/
theorem length_filter_map_le {α : Type} (f : α → α) (p : α → Bool)
    (h : ∀ x, p (f x) = true → p x = true) (l : List α) :
    ((l.map f).filter p).length ≤ (l.filter p).length := by
  induction l with
  | nil => exact Nat.le_refl 0
  | cons x xs ih =>
    simp only [List.map_cons, List.filter_cons]
    cases hfx : p (f x) with
    | true =>
      rw [h x hfx]
      simpa using Nat.succ_le_succ ih
    | false =>
      cases hx : p x with
      | true => simpa using Nat.le_succ_of_le ih
      | false => simpa using ih

/-- A `find?` for a stronger predicate still lands on the row a weaker
predicate found first, provided that row passes the stronger test. -/
theorem find?_restrict {α : Type} (q p : α → Bool)
    (hqp : ∀ x, q x = true → p x = true) (l : List α) (a : α)
    (hfind : l.find? p = some a) (hqa : q a = true) :
    l.find? q = some a := by
  induction l with
  | nil => simp at hfind
  | cons x xs ih =>
    by_cases hpx : p x = true
    · have hax : a = x := by
        rw [List.find?_cons_of_pos _ hpx] at hfind
        exact (Option.some_inj.mp hfind).symm
      subst hax
      exact List.find?_cons_of_pos _ hqa
    · have hqx : ¬q x = true := fun hq => hpx (hqp x hq)
      rw [List.find?_cons_of_neg _ hpx] at hfind
      rw [List.find?_cons_of_neg _ hqx]
      exact ih hfind

/-- `ORDER BY created_at DESC LIMIT 1` returns a strictly newest row
appended at the end. -/
theorem latestBooking_append_newest (l : List Booking) (a : Booking)
    (h : ∀ x ∈ l, x.createdAt < a.createdAt) :
    BookingService.latestBooking (l ++ [a]) = some a := by
  induction l with
  | nil => rfl
  | cons x xs ih =>
    have hx : x.createdAt < a.createdAt := h x (List.mem_cons_self x xs)
    have ih' := ih fun y hy => h y (List.mem_cons_of_mem x hy)
    simp only [List.cons_append, BookingService.latestBooking, List.append_eq, ih']
    rw [if_pos hx]

/-- `latestBooking` finds a row in any nonempty list. -/
theorem latestBooking_ne_none (l : List Booking) (hl : l ≠ []) :
    BookingService.latestBooking l ≠ none := by
  cases l with
  | nil => exact absurd rfl hl
  | cons x xs =>
    simp only [BookingService.latestBooking]
    cases BookingService.latestBooking xs with
    | none => simp
    | some c =>
      by_cases h : x.createdAt < c.createdAt <;> simp [h]

/-- The empty store. -/
def emptyDB : DB := { timeSlots := [], bookings := [], nextId := 1, now := 0 }

instance {ε α : Type} [DecidableEq ε] [DecidableEq α] :
    DecidableEq (Except ε α) := fun x y =>
  match x, y with
  | .ok a, .ok b =>
    if h : a = b then .isTrue (by rw [h])
    else .isFalse (by intro hc; injection hc; contradiction)
  | .ok _, .error _ => .isFalse (by intro hc; exact Except.noConfusion hc)
  | .error _, .ok _ => .isFalse (by intro hc; exact Except.noConfusion hc)
  | .error e, .error f =>
    if h : e = f then .isTrue (by rw [h])
    else .isFalse (by intro hc; injection hc; contradiction)

/-! ## Claim theorems -/

/-- C1: the spec says a capacity-`C` slot admits `C` sequential `Create`
calls, the `C+1`-th failing with CapacityExceeded — in particular with
capacity 2 the second sequential `Create` succeeds.  The code refutes
this: on `capTwoDB` (one capacity-2 available slot, no bookings) the first
`Create` succeeds and leaves one active booking, and the second `Create`
by a distinct user fails with "time slot is already booked" — the
already-booked guard fires before the capacity check ever can. -/
theorem second_create_on_capacity_two_fails :
    (∀ t ∈ capTwoDB.timeSlots, t.capacity = 2) ∧
    (BookingService.Create capTwoDB 1 1 1 "").isOk = true ∧
    activeCount afterFirstCreate 1 = 1 ∧
    BookingService.Create afterFirstCreate 2 1 1 "" =
      .error CreateError.alreadyBooked := by decide

/-- C4: the spec says `CheckConflicts` reports a conflict exactly on
half-open window overlap; in particular a request `[600, 660)` (10:00 to
11:00) conflicts with an active booking of the `[630, 690)` slot on the
same resource.  The code refutes this: on `overlapDB` such an overlapping
active booking exists, yet `CheckConflicts` reports no conflict (its query
filters the bookings table on `start_time`/`end_time`, columns that table
does not have, and the resulting scan error is swallowed). -/
theorem checkConflicts_misses_overlap :
    specHasConflict overlapDB 1 600 660 = true ∧
    BookingService.CheckConflicts overlapDB 1 600 660 = false := by decide

/-- C10 (counterexample): creating a time slot with `end_time = start_time`
does not fail with a pre-store ValidationError; the insert reaches the
store and is rejected by the `valid_time_range` check constraint.  The
spec-modelled validating variant disagrees with the source on this
input. -/
theorem timeSlotCreate_equal_ends_is_check_violation :
    TimeSlotService.Create emptyDB 1 100 100 1 none =
      .error TimeSlotCreateError.checkViolation ∧
    TimeSlotService.CreateSpec emptyDB 1 100 100 1 none =
      .error TimeSlotCreateError.validationError ∧
    TimeSlotCreateError.checkViolation ≠ TimeSlotCreateError.validationError := by
  decide

/-- C10 (amended): creating a TimeSlot with `end_time ≤ start_time` always
fails, but the failure is the store's `valid_time_range` check-constraint
rejection of the attempted insert, not a ValidationError raised before the
store. -/
theorem timeSlotCreate_invalid_range_rejected_by_store
    (db : DB) (r s e : Nat) (c : Int) (p : Option Int) (h : e ≤ s) :
    TimeSlotService.Create db r s e c p =
      .error TimeSlotCreateError.checkViolation := by
  unfold TimeSlotService.Create insertTimeSlot
  simp [Nat.not_lt.mpr h]

/-- C10 amended-claim witness at `end_time = start_time = 100`. -/
theorem timeSlotCreate_invalid_range_rejected_by_store_witness :
    (100 : Nat) ≤ 100 ∧
    TimeSlotService.Create emptyDB 1 100 100 1 none =
      .error TimeSlotCreateError.checkViolation :=
  ⟨Nat.le_refl 100,
   timeSlotCreate_invalid_range_rejected_by_store emptyDB 1 100 100 1 none
     (Nat.le_refl 100)⟩

/-! ## Characterization lemmas for the operations -/

theorem reactivateRow_id (sid : Nat) (t : TimeSlot) :
    (reactivateRow sid t).id = t.id := by
  unfold reactivateRow; split <;> rfl

theorem reactivateRow_capacity (sid : Nat) (t : TimeSlot) :
    (reactivateRow sid t).capacity = t.capacity := by
  unfold reactivateRow; split <;> rfl

theorem reactivateRow_idem (sid : Nat) (t : TimeSlot) :
    reactivateRow sid (reactivateRow sid t) = reactivateRow sid t := by
  unfold reactivateRow
  by_cases h : (t.id == sid) = true <;> simp [h]

theorem deactivateRow_id (sid : Nat) (t : TimeSlot) :
    (deactivateRow sid t).id = t.id := by
  unfold deactivateRow; split <;> rfl

theorem cancelRow_id (bid : Nat) (b : Booking) :
    (cancelRow bid b).id = b.id := by
  unfold cancelRow; split <;> rfl

theorem cancelRow_userId (bid : Nat) (b : Booking) :
    (cancelRow bid b).userId = b.userId := by
  unfold cancelRow; split <;> rfl

theorem cancelRow_timeSlotId (bid : Nat) (b : Booking) :
    (cancelRow bid b).timeSlotId = b.timeSlotId := by
  unfold cancelRow; split <;> rfl

theorem cancelRow_idem (bid : Nat) (b : Booking) :
    cancelRow bid (cancelRow bid b) = cancelRow bid b := by
  unfold cancelRow
  by_cases h : (b.id == bid) = true <;> simp [h]

/-- A cancelled-status rewrite can only deactivate a booking. -/
theorem activeFor_cancelRow (ts bid : Nat) (b : Booking) :
    activeFor ts (cancelRow bid b) = true → activeFor ts b = true := by
  unfold cancelRow; split
  · intro hA
    have hfalse : isActive { b with status := "cancelled" } = false := rfl
    unfold activeFor at hA
    rw [hfalse] at hA
    simp at hA
  · exact fun hA => hA

/-- The freshly inserted booking is active for its slot. -/
theorem activeFor_newBookingOf (db : DB) (u r ts : Nat) (n : String)
    (slot : TimeSlot) :
    activeFor ts (newBookingOf db u r ts n slot) = true := by
  unfold activeFor isActive newBookingOf
  simp

namespace BookingService

/-- Success of the `Create` transaction pins down the checks it performed
and the bookings list it commits. -/
theorem createTx_ok_elim (db db2 : DB) (u r ts : Nat) (n : String)
    (h : createTx db u r ts n = .ok db2) :
    ∃ slot, db.timeSlots.find? (slotPred r ts) = some slot ∧
      db.bookings.find? (activeFor ts) = none ∧
      (activeCount db ts : Int) < slot.capacity ∧
      db2.bookings = db.bookings ++ [newBookingOf db u r ts n slot] := by
  unfold createTx at h
  cases hslot : db.timeSlots.find? (slotPred r ts) with
  | none => rw [hslot] at h; exact Except.noConfusion h
  | some slot =>
    rw [hslot] at h
    cases hb : db.bookings.find? (activeFor ts) with
    | some b => rw [hb] at h; exact Except.noConfusion h
    | none =>
      rw [hb] at h
      simp only [] at h
      by_cases hcap : slot.capacity ≤ (activeCount db ts : Int)
      · rw [if_pos hcap] at h; exact Except.noConfusion h
      · rw [if_neg hcap] at h
        refine ⟨slot, rfl, rfl, not_le.mp hcap, ?_⟩
        by_cases hflag : slot.capacity ≤ (activeCount db ts : Int) + 1
        · rw [if_pos hflag] at h
          injection h with h'
          rw [← h']
        · rw [if_neg hflag] at h
          injection h with h'
          rw [← h']

/-- A successful `Create` is a successful transaction plus a successful
re-read. -/
theorem Create_ok_elim (db db2 : DB) (bk : Booking) (u r ts : Nat)
    (n : String) (h : Create db u r ts n = .ok (db2, bk)) :
    createTx db u r ts n = .ok db2 ∧
    latestBooking (db2.bookings.filter (rereadPred u r ts)) = some bk := by
  unfold Create at h
  cases htx : createTx db u r ts n with
  | error e => rw [htx] at h; exact Except.noConfusion h
  | ok db2' =>
    rw [htx] at h
    simp only [] at h
    cases hl : latestBooking (db2'.bookings.filter (rereadPred u r ts)) with
    | none => rw [hl] at h; exact Except.noConfusion h
    | some b' =>
      rw [hl] at h
      injection h with h'
      have h1 : db2' = db2 := congrArg Prod.fst h'
      have h2 : b' = bk := congrArg Prod.snd h'
      rw [h1, h2] at hl
      exact ⟨congrArg Except.ok h1, hl⟩

/-- A found `Cancel` commits `cancelState` for the found booking's slot. -/
theorem Cancel_ok_elim (db db1 : DB) (bid u : Nat)
    (h : Cancel db bid u = .ok db1) :
    ∃ booking,
      db.bookings.find? (fun b => b.id == bid && b.userId == u) = some booking ∧
      db1 = cancelState db bid booking.timeSlotId := by
  unfold Cancel at h
  cases hf : db.bookings.find? (fun b => b.id == bid && b.userId == u) with
  | none => rw [hf] at h; exact Except.noConfusion h
  | some booking =>
    rw [hf] at h
    injection h with h'
    exact ⟨booking, rfl, h'.symm⟩

/-- `Cancel` fails (with not-found) exactly when the lookup by id and user
finds no row. -/
theorem Cancel_err_iff (db : DB) (bid u : Nat) :
    Cancel db bid u = .error .notFound ↔
      db.bookings.find? (fun b => b.id == bid && b.userId == u) = none := by
  unfold Cancel
  cases hf : db.bookings.find? (fun b => b.id == bid && b.userId == u) with
  | none => simp
  | some booking => simp

/-- `cancelFinish` never touches the bookings table. -/
theorem cancelFinish_bookings (d : DB) (sid : Nat) :
    (cancelFinish d sid).bookings = d.bookings := by
  unfold cancelFinish
  cases d.timeSlots.find? (fun t => t.id == sid) with
  | none => rfl
  | some slot => dsimp only; split <;> rfl

end BookingService

namespace BookingService

/-- The transaction fails with the not-found-or-unavailable error exactly
when the filtered slot lookup finds no row. -/
theorem createTx_slotNotFound_iff (db : DB) (u r ts : Nat) (n : String) :
    createTx db u r ts n = .error .slotNotFoundOrUnavailable ↔
      db.timeSlots.find? (slotPred r ts) = none := by
  unfold createTx
  cases hslot : db.timeSlots.find? (slotPred r ts) with
  | none => simp
  | some slot =>
    simp only []
    cases hb : db.bookings.find? (activeFor ts) with
    | some b => simp
    | none =>
      by_cases hcap : slot.capacity ≤ (activeCount db ts : Int)
      · rw [if_pos hcap]; simp
      · rw [if_neg hcap]
        by_cases hflag : slot.capacity ≤ (activeCount db ts : Int) + 1
        · rw [if_pos hflag]; simp
        · rw [if_neg hflag]; simp

/-- `Create` surfaces the not-found-or-unavailable error exactly when the
transaction produced it (the re-read can only fail differently). -/
theorem Create_slotNotFound_iff (db : DB) (u r ts : Nat) (n : String) :
    Create db u r ts n = .error .slotNotFoundOrUnavailable ↔
      createTx db u r ts n = .error .slotNotFoundOrUnavailable := by
  unfold Create
  cases htx : createTx db u r ts n with
  | error e => simp
  | ok db2 =>
    simp only []
    cases hl : latestBooking (db2.bookings.filter (rereadPred u r ts)) with
    | none => simp
    | some b => simp

end BookingService

/-- The state a caller observes after a `Create`: the committed state on
success, the caller's unchanged state on failure — `RunInTx` rolls the
transaction back, so no partial write survives an error. -/
def stateAfter (res : Except CreateError (DB × Booking)) (db : DB) : DB :=
  match res with
  | .ok (db2, _) => db2
  | .error _ => db

/-- C6: `Create(userId, resourceId, timeSlotId, notes)` fails with the
NotFoundOrUnavailable error if and only if no TimeSlot row has that id,
that resource id, and availability flag true; and on this failure (as on
any other failure of the transaction) the caller's state is unchanged — no
booking row and no slot field of it differs from the pre-call state. -/
theorem create_notFound_iff_no_available_slot (db : DB) (u r ts : Nat)
    (n : String) :
    (BookingService.Create db u r ts n =
        .error CreateError.slotNotFoundOrUnavailable ↔
      ∀ t ∈ db.timeSlots,
        ¬(t.id = ts ∧ t.resourceId = r ∧ t.isAvailable = true)) ∧
    ∀ e, BookingService.Create db u r ts n = .error e →
      stateAfter (BookingService.Create db u r ts n) db = db := by
  constructor
  · rw [BookingService.Create_slotNotFound_iff,
        BookingService.createTx_slotNotFound_iff, List.find?_eq_none]
    constructor
    · intro h t ht hc
      have := h t ht
      unfold slotPred at this
      simp [hc.1, hc.2.1, hc.2.2] at this
    · intro h t ht
      have := h t ht
      unfold slotPred
      simp only [Bool.and_eq_true, beq_iff_eq]
      intro hc
      exact this ⟨hc.1.1, hc.1.2, hc.2⟩
  · intro e he
    rw [he]
    rfl

/-- C6 witness: on the empty store the lookup finds nothing, `Create`
fails with the not-found-or-unavailable error, and the state is
unchanged. -/
theorem create_notFound_iff_no_available_slot_witness :
    (BookingService.Create emptyDB 1 1 1 "" =
        .error CreateError.slotNotFoundOrUnavailable ↔
      ∀ t ∈ emptyDB.timeSlots,
        ¬(t.id = 1 ∧ t.resourceId = 1 ∧ t.isAvailable = true)) ∧
    stateAfter (BookingService.Create emptyDB 1 1 1 "") emptyDB = emptyDB :=
  ⟨(create_notFound_iff_no_available_slot emptyDB 1 1 1 "").1,
   (create_notFound_iff_no_available_slot emptyDB 1 1 1 "").2
     CreateError.slotNotFoundOrUnavailable (by decide)⟩

/-- C7: whenever `Create` succeeds, the booking it returns has status
`confirmed`, total amount equal to the loaded slot's price, references the
given user, resource and time slot, and is a row of the committed store
(it is the row the post-commit re-read returned). -/
theorem create_success_returns_confirmed_booking
    (db db2 : DB) (bk : Booking) (u r ts : Nat) (n : String)
    (hwf : ∀ x ∈ db.bookings, x.createdAt < db.now)
    (h : BookingService.Create db u r ts n = .ok (db2, bk)) :
    bk.status = "confirmed" ∧ bk.userId = u ∧ bk.resourceId = r ∧
    bk.timeSlotId = ts ∧
    (∃ slot, db.timeSlots.find? (slotPred r ts) = some slot ∧
      bk.totalAmount = slot.price) ∧
    bk ∈ db2.bookings := by
  obtain ⟨htx, hread⟩ := BookingService.Create_ok_elim db db2 bk u r ts n h
  obtain ⟨slot, hslot, hnone, hcap, hbks⟩ :=
    BookingService.createTx_ok_elim db db2 u r ts n htx
  have hfilter : db2.bookings.filter (BookingService.rereadPred u r ts) =
      db.bookings.filter (BookingService.rereadPred u r ts) ++
        [newBookingOf db u r ts n slot] := by
    rw [hbks, List.filter_append]
    congr 1
    simp [BookingService.rereadPred, newBookingOf]
  have hlt : ∀ x ∈ db.bookings.filter (BookingService.rereadPred u r ts),
      x.createdAt < (newBookingOf db u r ts n slot).createdAt := by
    intro x hx
    have hmem := (List.mem_filter.mp hx).1
    simpa [newBookingOf] using hwf x hmem
  have hlatest :
      BookingService.latestBooking
        (db2.bookings.filter (BookingService.rereadPred u r ts)) =
      some (newBookingOf db u r ts n slot) := by
    rw [hfilter]
    exact latestBooking_append_newest _ _ hlt
  have hbkeq : bk = newBookingOf db u r ts n slot := by
    rw [hread] at hlatest
    exact Option.some_inj.mp hlatest
  subst hbkeq
  refine ⟨rfl, rfl, rfl, rfl, ⟨slot, hslot, rfl⟩, ?_⟩
  rw [hbks]
  exact List.mem_append_right _ (List.mem_singleton.mpr rfl)

/-- The booking the capacity-2 scenario's first `Create` returns. -/
def firstBooking : Booking :=
  { id := 10, userId := 1, resourceId := 1, timeSlotId := 1,
    status := "confirmed", notes := "", totalAmount := some 2550,
    createdAt := 100 }

/-- C7 witness: the capacity-2 scenario's first `Create` returns the
confirmed booking of user 1 that the committed store holds. -/
theorem create_success_returns_confirmed_booking_witness :
    firstBooking.status = "confirmed" ∧ firstBooking.userId = 1 ∧
    firstBooking.resourceId = 1 ∧ firstBooking.timeSlotId = 1 ∧
    (∃ slot, capTwoDB.timeSlots.find? (slotPred 1 1) = some slot ∧
      firstBooking.totalAmount = slot.price) ∧
    firstBooking ∈ afterFirstCreate.bookings :=
  create_success_returns_confirmed_booking capTwoDB afterFirstCreate
    firstBooking 1 1 1 "" (by decide) (by decide)

/-- Start-time order on slots, the `ORDER BY start_time ASC` relation. -/
instance : IsTotal TimeSlot (fun a b => a.startTime ≤ b.startTime) :=
  ⟨fun a b => Nat.le_total a.startTime b.startTime⟩

instance : IsTrans TimeSlot (fun a b => a.startTime ≤ b.startTime) :=
  ⟨fun _ _ _ hab hbc => Nat.le_trans hab hbc⟩

/-- C8: `GetAvailable` returns exactly the slots of the resource whose
window lies within `[startDate, endDate]`, whose availability flag is
true, and whose active-booking count is strictly below capacity — a
permutation of that filter of the table, sorted by start time ascending —
and the empty list (not an error: the return type has no error case) when
no slot matches. -/
theorem getAvailable_returns_open_slots (db : DB) (r sd ed : Nat) :
    (∀ t, t ∈ TimeSlotService.GetAvailable db r sd ed ↔
      t ∈ db.timeSlots ∧ t.resourceId = r ∧ t.isAvailable = true ∧
        sd ≤ t.startTime ∧ t.endTime ≤ ed ∧
        (activeCount db t.id : Int) < t.capacity) ∧
    List.Sorted (fun a b : TimeSlot => a.startTime ≤ b.startTime)
      (TimeSlotService.GetAvailable db r sd ed) ∧
    ((∀ t ∈ db.timeSlots,
        ¬(t.resourceId = r ∧ t.isAvailable = true ∧ sd ≤ t.startTime ∧
          t.endTime ≤ ed ∧ (activeCount db t.id : Int) < t.capacity)) →
      TimeSlotService.GetAvailable db r sd ed = []) := by
  refine ⟨?_, ?_, ?_⟩
  · intro t
    unfold TimeSlotService.GetAvailable
    rw [(List.perm_insertionSort _ _).mem_iff, List.mem_filter]
    simp only [Bool.and_eq_true, beq_iff_eq, decide_eq_true_eq]
    constructor
    · rintro ⟨hmem, ⟨⟨⟨h1, h2⟩, h3⟩, h4⟩, h5⟩
      exact ⟨hmem, h1, h2, h3, h4, by omega⟩
    · rintro ⟨hmem, h1, h2, h3, h4, h5⟩
      exact ⟨hmem, ⟨⟨⟨h1, h2⟩, h3⟩, h4⟩, by omega⟩
  · exact List.sorted_insertionSort _ _
  · intro hnone
    unfold TimeSlotService.GetAvailable
    have : db.timeSlots.filter (fun t =>
        t.resourceId == r && t.isAvailable &&
          decide (sd ≤ t.startTime) && decide (t.endTime ≤ ed) &&
          decide (0 < t.capacity - (activeCount db t.id : Int))) = [] := by
      rw [List.filter_eq_nil]
      intro t ht
      have := hnone t ht
      simp only [Bool.and_eq_true, beq_iff_eq, decide_eq_true_eq, not_and]
      rintro ⟨⟨⟨h1, h2⟩, h3⟩, h4⟩
      intro h5
      exact this ⟨h1, h2, h3, h4, by omega⟩
    rw [this]
    rfl

/-- C8 witness: on the empty store no slot matches and the result is the
empty list. -/
theorem getAvailable_returns_open_slots_witness :
    (∀ t ∈ emptyDB.timeSlots,
      ¬(t.resourceId = 1 ∧ t.isAvailable = true ∧ 0 ≤ t.startTime ∧
        t.endTime ≤ 100 ∧ (activeCount emptyDB t.id : Int) < t.capacity)) ∧
    TimeSlotService.GetAvailable emptyDB 1 0 100 = [] :=
  ⟨by decide,
   (getAvailable_returns_open_slots emptyDB 1 0 100).2.2 (by decide)⟩

/-- States reachable from a no-bookings state by successful `Create` and
`Cancel` operations (failed operations roll back and leave the state
unchanged, so they are not steps). -/
inductive Reachable : DB → Prop
  | init (db : DB) (h : db.bookings = []) : Reachable db
  | createStep (db db2 : DB) (bk : Booking) (u r ts : Nat) (n : String)
      (hdb : Reachable db)
      (h : BookingService.Create db u r ts n = .ok (db2, bk)) : Reachable db2
  | cancelStep (db db2 : DB) (bid u : Nat) (hdb : Reachable db)
      (h : BookingService.Cancel db bid u = .ok db2) : Reachable db2

/-- Any reachable state has at most one active booking per slot: a
successful `Create` requires the slot to have no active booking and adds
exactly one, and `Cancel` never activates a booking. -/
theorem reachable_activeCount_le_one (db : DB) (h : Reachable db) :
    ∀ ts, activeCount db ts ≤ 1 := by
  induction h with
  | init db hdb =>
    intro ts
    unfold activeCount activeBookings
    rw [hdb]
    exact Nat.zero_le 1
  | createStep db db2 bk u r ts' n hdb hcr ih =>
    intro ts
    obtain ⟨htx, _⟩ := BookingService.Create_ok_elim db db2 bk u r ts' n hcr
    obtain ⟨slot, hslot, hnone, hcap, hbks⟩ :=
      BookingService.createTx_ok_elim db db2 u r ts' n htx
    unfold activeCount activeBookings
    rw [hbks, List.filter_append]
    by_cases hts : ts' = ts
    · subst hts
      have hempty : db.bookings.filter (activeFor ts') = [] := by
        rw [List.filter_eq_nil]
        exact List.find?_eq_none.mp hnone
      rw [hempty]
      simp only [List.nil_append, List.length_append, List.filter]
      cases activeFor ts' (newBookingOf db u r ts' n slot) <;> simp
    · have hnb : activeFor ts (newBookingOf db u r ts' n slot) = false := by
        unfold activeFor newBookingOf
        simp only [Bool.and_eq_false_iff]
        left
        exact beq_eq_false_iff_ne.mpr hts
      simp only [List.filter, hnb]
      rw [List.length_append]
      simpa using ih ts
  | cancelStep db db2 bid u hdb hcan ih =>
    intro ts
    obtain ⟨bk, hf, hstate⟩ := BookingService.Cancel_ok_elim db db2 bid u hcan
    have hb2 : db2.bookings = db.bookings.map (cancelRow bid) := by
      rw [hstate]
      unfold BookingService.cancelState
      rw [BookingService.cancelFinish_bookings]
    unfold activeCount activeBookings
    rw [hb2]
    exact Nat.le_trans
      (length_filter_map_le (cancelRow bid) (activeFor ts)
        (activeFor_cancelRow ts bid) db.bookings)
      (ih ts)

/-- C2: in every state reachable from a no-bookings state by `Create` and
`Cancel`, each slot has at most one active (pending or confirmed) booking;
and in any state whatsoever, `Create` cannot succeed on a slot that
already has an active booking, regardless of the slot's declared capacity
— the already-booked guard fires before the capacity check. -/
theorem at_most_one_active_booking (db : DB) :
    (Reachable db → ∀ ts, activeCount db ts ≤ 1) ∧
    ∀ ts, 0 < activeCount db ts → ∀ u r n res,
      BookingService.Create db u r ts n ≠ .ok res := by
  constructor
  · exact fun h => reachable_activeCount_le_one db h
  · intro ts hpos u r n res hok
    obtain ⟨htx, _⟩ :=
      BookingService.Create_ok_elim db res.1 res.2 u r ts n (by rw [hok])
    obtain ⟨slot, hslot, hnone, hcap, hbks⟩ :=
      BookingService.createTx_ok_elim db res.1 u r ts n htx
    have hempty : db.bookings.filter (activeFor ts) = [] := by
      rw [List.filter_eq_nil]
      exact List.find?_eq_none.mp hnone
    unfold activeCount activeBookings at hpos
    rw [hempty] at hpos
    exact Nat.lt_irrefl 0 hpos

/-- C2 witness: after one successful `Create` on the capacity-2 slot the
state is reachable, holds one active booking, and a second `Create` on
that slot cannot succeed. -/
theorem at_most_one_active_booking_witness :
    activeCount afterFirstCreate 1 ≤ 1 ∧
    BookingService.Create afterFirstCreate 2 1 1 "" ≠
      .ok (afterFirstCreate, firstBooking) :=
  ⟨(at_most_one_active_booking afterFirstCreate).1
      (Reachable.createStep capTwoDB afterFirstCreate firstBooking 1 1 1 ""
        (Reachable.init capTwoDB rfl) (by decide)) 1,
   (at_most_one_active_booking afterFirstCreate).2 1 (by decide) 2 1 ""
      (afterFirstCreate, firstBooking)⟩

namespace BookingService

/-- A found `Cancel` lookup determines the whole operation. -/
theorem Cancel_of_found (db : DB) (bid u : Nat) (bk : Booking)
    (hf : db.bookings.find? (fun b => b.id == bid && b.userId == u) = some bk) :
    Cancel db bid u = .ok (cancelState db bid bk.timeSlotId) := by
  unfold Cancel
  rw [hf]

/-- The re-enable step is idempotent: re-running it changes nothing,
because the slot lookup, the count and the capacity it reads are all
unchanged by its own availability rewrite. -/
theorem cancelFinish_idem (d : DB) (sid : Nat) :
    cancelFinish (cancelFinish d sid) sid = cancelFinish d sid := by
  cases hf : d.timeSlots.find? (fun t => t.id == sid) with
  | none =>
    have h1 : cancelFinish d sid = d := by
      unfold cancelFinish; simp only [hf]
    rw [h1]; exact h1
  | some slot =>
    by_cases hc : (activeCount d sid : Int) < slot.capacity
    · have h1 : cancelFinish d sid =
          { d with timeSlots := d.timeSlots.map (reactivateRow sid) } := by
        unfold cancelFinish; simp only [hf]; rw [if_pos hc]
      rw [h1]
      have hfind : (d.timeSlots.map (reactivateRow sid)).find?
          (fun t => t.id == sid) = some (reactivateRow sid slot) := by
        rw [find?_map_of_pred_invariant _ _
              (fun t => by rw [reactivateRow_id]) d.timeSlots, hf]
        rfl
      have hcond : (activeCount
            { d with timeSlots := d.timeSlots.map (reactivateRow sid) } sid : Int) <
          (reactivateRow sid slot).capacity := by
        rw [reactivateRow_capacity]; exact hc
      unfold cancelFinish
      simp only [hfind]
      rw [if_pos hcond, map_idem _ (reactivateRow_idem sid) d.timeSlots]
    · have h1 : cancelFinish d sid = d := by
        unfold cancelFinish; simp only [hf]; rw [if_neg hc]
      rw [h1]; exact h1

/-- The whole cancellation update is idempotent on states. -/
theorem cancelState_idem (db : DB) (bid sid : Nat) :
    cancelState (cancelState db bid sid) bid sid =
      cancelState db bid sid := by
  unfold cancelState
  have hDb : (cancelFinish
        { db with bookings := db.bookings.map (cancelRow bid) } sid).bookings.map
        (cancelRow bid) =
      (cancelFinish
        { db with bookings := db.bookings.map (cancelRow bid) } sid).bookings := by
    rw [cancelFinish_bookings]
    show (db.bookings.map (cancelRow bid)).map (cancelRow bid) =
      db.bookings.map (cancelRow bid)
    exact map_idem _ (cancelRow_idem bid) db.bookings
  rw [hDb]
  exact cancelFinish_idem _ sid

end BookingService

/-- C9: `Cancel(bookingId, userId)` fails with not-found exactly when no
booking row has that id and that user id; otherwise it succeeds — also on
an already-cancelled booking — and in every success the booking rows with
that id end with status `cancelled`, and cancelling again succeeds and
leaves the state exactly as after the first cancellation.  (The modelled
state omits `updated_at`, the write-only audit timestamp the cancel
update also touches; state equality is over everything the operations
read.) -/
theorem cancel_notFound_iff_and_idempotent (db : DB) (bid u : Nat) :
    (BookingService.Cancel db bid u = .error CancelError.notFound ↔
      ∀ b ∈ db.bookings, ¬(b.id = bid ∧ b.userId = u)) ∧
    ∀ db1, BookingService.Cancel db bid u = .ok db1 →
      (∀ b ∈ db1.bookings, b.id = bid → b.status = "cancelled") ∧
      BookingService.Cancel db1 bid u = .ok db1 := by
  constructor
  · rw [BookingService.Cancel_err_iff, List.find?_eq_none]
    constructor
    · intro h b hb hc
      exact h b hb (by simp [hc.1, hc.2])
    · intro h b hb hc
      simp only [Bool.and_eq_true, beq_iff_eq] at hc
      exact h b hb hc
  · intro db1 h
    obtain ⟨bk, hf, hstate⟩ := BookingService.Cancel_ok_elim db db1 bid u h
    have hb1 : db1.bookings = db.bookings.map (cancelRow bid) := by
      rw [hstate]
      unfold BookingService.cancelState
      rw [BookingService.cancelFinish_bookings]
    constructor
    · intro b hb hid
      rw [hb1] at hb
      obtain ⟨x, hx, rfl⟩ := List.mem_map.mp hb
      cases hxi : (x.id == bid) with
      | true => simp [cancelRow, hxi]
      | false =>
        exfalso
        rw [cancelRow, if_neg (by rw [hxi]; exact Bool.false_ne_true)] at hid
        exact absurd (beq_iff_eq.mpr hid) (by rw [hxi]; exact Bool.false_ne_true)
    · have hf1 : db1.bookings.find? (fun b => b.id == bid && b.userId == u) =
          some (cancelRow bid bk) := by
        rw [hb1, find?_map_of_pred_invariant _ _
              (fun x => by rw [cancelRow_id, cancelRow_userId]) db.bookings, hf]
        rfl
      rw [BookingService.Cancel_of_found db1 bid u (cancelRow bid bk) hf1,
          cancelRow_timeSlotId, hstate, BookingService.cancelState_idem]

/-- The state after cancelling the first booking of the capacity-2
scenario. -/
def afterCancel : DB :=
  match BookingService.Cancel afterFirstCreate 10 1 with
  | .ok d => d
  | .error _ => afterFirstCreate

/-- C9 witness: cancelling booking 10 of user 1 after the first `Create`
succeeds, sets its status to cancelled, and cancelling it again returns
the same state. -/
theorem cancel_notFound_iff_and_idempotent_witness :
    (∀ b ∈ afterCancel.bookings, b.id = 10 → b.status = "cancelled") ∧
    BookingService.Cancel afterCancel 10 1 = .ok afterCancel :=
  (cancel_notFound_iff_and_idempotent afterFirstCreate 10 1).2 afterCancel
    (by decide)

theorem deactivateRow_capacity (sid : Nat) (t : TimeSlot) :
    (deactivateRow sid t).capacity = t.capacity := by
  unfold deactivateRow; split <;> rfl

theorem deactivateRow_resourceId (sid : Nat) (t : TimeSlot) :
    (deactivateRow sid t).resourceId = t.resourceId := by
  unfold deactivateRow; split <;> rfl

theorem reactivateRow_resourceId (sid : Nat) (t : TimeSlot) :
    (reactivateRow sid t).resourceId = t.resourceId := by
  unfold reactivateRow; split <;> rfl

/-- A row the availability-true rewrite matched is available. -/
theorem reactivateRow_isAvailable (sid : Nat) (t : TimeSlot)
    (h : (t.id == sid) = true) : (reactivateRow sid t).isAvailable = true := by
  unfold reactivateRow
  rw [if_pos h]

/-- An id-matching row is deactivated by the availability-false rewrite. -/
theorem deactivateRow_isAvailable (sid : Nat) (t : TimeSlot)
    (h : (t.id == sid) = true) : (deactivateRow sid t).isAvailable = false := by
  unfold deactivateRow
  rw [if_pos h]

/-- `Create` succeeds once its transaction commits and the re-read filter
matches at least one row. -/
theorem Create_isOk_of (db : DB) (u r ts : Nat) (n : String) (db2 : DB)
    (htx : BookingService.createTx db u r ts n = .ok db2)
    (hne : db2.bookings.filter (BookingService.rereadPred u r ts) ≠ []) :
    ∃ db3 b3, BookingService.Create db u r ts n = .ok (db3, b3) := by
  unfold BookingService.Create
  rw [htx]
  cases hl : BookingService.latestBooking
      (db2.bookings.filter (BookingService.rereadPred u r ts)) with
  | none => exact absurd hl (latestBooking_ne_none _ hne)
  | some b3 => exact ⟨db2, b3, by simp only [hl]⟩

/-- C5: on a capacity-1 slot (no active bookings, well-formed fresh ids and
timestamps), a successful `Create` marks the slot unavailable; cancelling
the returned booking with the same booking id and user id succeeds, sets
the booking's status to cancelled, recomputes the slot's active count as 0
(excluding the cancelled booking), flips the availability flag back to
true, and a subsequent `Create` on that slot by any user succeeds. -/
theorem cancel_reopens_capacity_one_slot
    (db : DB) (slot : TimeSlot) (u1 r sid : Nat) (n : String)
    (hwfid : ∀ b ∈ db.bookings, b.id < db.nextId)
    (hwft : ∀ b ∈ db.bookings, b.createdAt < db.now)
    (h1 : db.timeSlots.find? (slotPred r sid) = some slot)
    (h1' : db.timeSlots.find? (fun t => t.id == sid) = some slot)
    (h2 : slot.capacity = 1)
    (hb : db.bookings.find? (activeFor sid) = none) :
    ∃ db1 b1, BookingService.Create db u1 r sid n = .ok (db1, b1) ∧
      (∀ t ∈ db1.timeSlots, t.id = sid → t.isAvailable = false) ∧
      ∃ db2, BookingService.Cancel db1 b1.id u1 = .ok db2 ∧
        (∀ b ∈ db2.bookings, b.id = b1.id → b.status = "cancelled") ∧
        activeCount db2 sid = 0 ∧
        (∀ t ∈ db2.timeSlots, t.id = sid → t.isAvailable = true) ∧
        ∀ u2 n2, ∃ db3 b3,
          BookingService.Create db2 u2 r sid n2 = .ok (db3, b3) := by
  have hslotid : (slot.id == sid) = true := by
    have h := List.find?_some h1'
    simpa using h
  have hslotpred : slotPred r sid slot = true := List.find?_some h1
  have hslotr : (slot.resourceId == r) = true := by
    unfold slotPred at hslotpred
    exact (Bool.and_eq_true_iff.mp (Bool.and_eq_true_iff.mp hslotpred).1).2
  have hallinact : ∀ b ∈ db.bookings, ¬activeFor sid b = true :=
    List.find?_eq_none.mp hb
  have hcount0 : activeCount db sid = 0 := by
    unfold activeCount activeBookings
    rw [List.filter_eq_nil.mpr hallinact]
    rfl
  have hc1 : ¬(slot.capacity ≤ (activeCount db sid : Int)) := by
    rw [h2, hcount0]; omega
  have hc2 : slot.capacity ≤ (activeCount db sid : Int) + 1 := by
    rw [h2, hcount0]; omega
  set nb := newBookingOf db u1 r sid n slot with hnb
  set db1 : DB := { db with
      timeSlots := db.timeSlots.map (deactivateRow sid)
      bookings := db.bookings ++ [nb]
      nextId := db.nextId + 1
      now := db.now + 1 } with hdb1
  have htx : BookingService.createTx db u1 r sid n = .ok db1 := by
    unfold BookingService.createTx
    simp only [h1, hb]
    rw [if_neg hc1, if_pos hc2]
  have hfilter1 : db1.bookings.filter (BookingService.rereadPred u1 r sid) =
      db.bookings.filter (BookingService.rereadPred u1 r sid) ++ [nb] := by
    show (db.bookings ++ [nb]).filter _ = _
    rw [List.filter_append]
    congr 1
    simp [BookingService.rereadPred, hnb, newBookingOf]
  have hread : BookingService.latestBooking
      (db1.bookings.filter (BookingService.rereadPred u1 r sid)) = some nb := by
    rw [hfilter1]
    apply latestBooking_append_newest
    intro x hx
    have hmem := (List.mem_filter.mp hx).1
    simpa [hnb, newBookingOf] using hwft x hmem
  have hcreate : BookingService.Create db u1 r sid n = .ok (db1, nb) := by
    unfold BookingService.Create
    rw [htx]
    simp only [hread]
  refine ⟨db1, nb, hcreate, ?_, ?_⟩
  · intro t ht hid
    have ht' : t ∈ db.timeSlots.map (deactivateRow sid) := ht
    obtain ⟨x, hx, rfl⟩ := List.mem_map.mp ht'
    by_cases hxi : (x.id == sid) = true
    · exact deactivateRow_isAvailable sid x hxi
    · exfalso
      rw [deactivateRow_id] at hid
      exact hxi (beq_iff_eq.mpr hid)
  · have hnbid : nb.id = db.nextId := rfl
    have hnbts : nb.timeSlotId = sid := rfl
    have hfind1 : db1.bookings.find?
        (fun b => b.id == nb.id && b.userId == u1) = some nb := by
      show (db.bookings ++ [nb]).find? _ = _
      rw [List.find?_append]
      have hold : db.bookings.find?
          (fun b => b.id == nb.id && b.userId == u1) = none := by
        rw [List.find?_eq_none]
        intro x hx hpx
        have hxid : (x.id == nb.id) = true := (Bool.and_eq_true_iff.mp hpx).1
        rw [hnbid] at hxid
        exact absurd (beq_iff_eq.mp hxid) (Nat.ne_of_lt (hwfid x hx))
      rw [hold]
      simp [hnb, newBookingOf]
    have hcancel0 : BookingService.Cancel db1 nb.id u1 =
        .ok (BookingService.cancelState db1 nb.id sid) := by
      have h := BookingService.Cancel_of_found db1 nb.id u1 nb hfind1
      rw [hnbts] at h
      exact h
    set db1' : DB := { db1 with
        bookings := db1.bookings.map (cancelRow nb.id) } with hdb1'
    have hcancelled_nb : cancelRow nb.id nb = { nb with status := "cancelled" } := by
      unfold cancelRow
      rw [if_pos (beq_self_eq_true nb.id)]
    have hinact : ∀ b ∈ db1'.bookings, ¬activeFor sid b = true := by
      intro b hbmem
      have hbm : b ∈ (db.bookings ++ [nb]).map (cancelRow nb.id) := hbmem
      obtain ⟨x, hx, rfl⟩ := List.mem_map.mp hbm
      rcases List.mem_append.mp hx with hxold | hxnew
      · intro hact
        exact hallinact x hxold (activeFor_cancelRow sid nb.id x hact)
      · have hxe : x = nb := List.mem_singleton.mp hxnew
        subst hxe
        rw [hcancelled_nb]
        intro hact
        have hfalse : isActive { nb with status := "cancelled" } = false := rfl
        unfold activeFor at hact
        rw [hfalse] at hact
        simp at hact
    have hcnt' : activeCount db1' sid = 0 := by
      unfold activeCount activeBookings
      rw [List.filter_eq_nil.mpr hinact]
      rfl
    have hfindslot : db1'.timeSlots.find? (fun t => t.id == sid) =
        some (deactivateRow sid slot) := by
      show (db.timeSlots.map (deactivateRow sid)).find? _ = _
      rw [find?_map_of_pred_invariant _ _
            (fun t => by rw [deactivateRow_id]) db.timeSlots, h1']
      rfl
    have hcond : (activeCount db1' sid : Int) <
        (deactivateRow sid slot).capacity := by
      rw [hcnt', deactivateRow_capacity, h2]; omega
    have hdb2eq : BookingService.cancelState db1 nb.id sid =
        { db1' with timeSlots := db1'.timeSlots.map (reactivateRow sid) } := by
      unfold BookingService.cancelState
      rw [← hdb1']
      unfold BookingService.cancelFinish
      simp only [hfindslot]
      rw [if_pos hcond]
    set db2 : DB := { db1' with
        timeSlots := db1'.timeSlots.map (reactivateRow sid) } with hdb2
    refine ⟨db2, by rw [hcancel0, hdb2eq], ?_, ?_, ?_, ?_⟩
    · intro b hbmem hid
      have hbm : b ∈ db1.bookings.map (cancelRow nb.id) := hbmem
      obtain ⟨x, hx, rfl⟩ := List.mem_map.mp hbm
      by_cases hxi : (x.id == nb.id) = true
      · simp [cancelRow, hxi]
      · exfalso
        rw [cancelRow_id] at hid
        exact hxi (beq_iff_eq.mpr hid)
    · exact hcnt'
    · intro t ht hid
      have ht' : t ∈ db1'.timeSlots.map (reactivateRow sid) := ht
      obtain ⟨x, hx, rfl⟩ := List.mem_map.mp ht'
      by_cases hxi : (x.id == sid) = true
      · exact reactivateRow_isAvailable sid x hxi
      · exfalso
        rw [reactivateRow_id] at hid
        exact hxi (beq_iff_eq.mpr hid)
    · intro u2 n2
      have hfs : db2.timeSlots.find? (fun t => t.id == sid) =
          some (reactivateRow sid (deactivateRow sid slot)) := by
        show (db1'.timeSlots.map (reactivateRow sid)).find? _ = _
        rw [find?_map_of_pred_invariant _ _
              (fun t => by rw [reactivateRow_id]) _, hfindslot]
        rfl
      have hq : slotPred r sid (reactivateRow sid (deactivateRow sid slot)) =
          true := by
        unfold slotPred
        have hid2 : ((reactivateRow sid (deactivateRow sid slot)).id == sid) =
            true := by
          rw [reactivateRow_id, deactivateRow_id]; exact hslotid
        have hr2 : ((reactivateRow sid (deactivateRow sid slot)).resourceId ==
            r) = true := by
          rw [reactivateRow_resourceId, deactivateRow_resourceId]; exact hslotr
        have hav2 : (reactivateRow sid (deactivateRow sid slot)).isAvailable =
            true := by
          apply reactivateRow_isAvailable
          rw [deactivateRow_id]; exact hslotid
        rw [hid2, hr2, hav2]
        rfl
      have hfs2 : db2.timeSlots.find? (slotPred r sid) =
          some (reactivateRow sid (deactivateRow sid slot)) :=
        find?_restrict _ _
          (fun x hx => (Bool.and_eq_true_iff.mp (Bool.and_eq_true_iff.mp hx).1).1)
          _ _ hfs hq
      have hbnone2 : db2.bookings.find? (activeFor sid) = none := by
        rw [List.find?_eq_none]
        exact hinact
      have hcnt2 : activeCount db2 sid = 0 := hcnt'
      have hcap2 : (reactivateRow sid (deactivateRow sid slot)).capacity = 1 := by
        rw [reactivateRow_capacity, deactivateRow_capacity]; exact h2
      have hc1' : ¬((reactivateRow sid (deactivateRow sid slot)).capacity ≤
          (activeCount db2 sid : Int)) := by
        rw [hcap2, hcnt2]; omega
      have hc2' : (reactivateRow sid (deactivateRow sid slot)).capacity ≤
          (activeCount db2 sid : Int) + 1 := by
        rw [hcap2, hcnt2]; omega
      set nb2 := newBookingOf db2 u2 r sid n2
        (reactivateRow sid (deactivateRow sid slot)) with hnb2
      set db3 : DB := { db2 with
          timeSlots := db2.timeSlots.map (deactivateRow sid)
          bookings := db2.bookings ++ [nb2]
          nextId := db2.nextId + 1
          now := db2.now + 1 } with hdb3
      have htx2 : BookingService.createTx db2 u2 r sid n2 = .ok db3 := by
        unfold BookingService.createTx
        simp only [hfs2, hbnone2]
        rw [if_neg hc1', if_pos hc2']
      apply Create_isOk_of db2 u2 r sid n2 db3 htx2
      have hfil2 : db3.bookings.filter (BookingService.rereadPred u2 r sid) =
          db2.bookings.filter (BookingService.rereadPred u2 r sid) ++ [nb2] := by
        show (db2.bookings ++ [nb2]).filter _ = _
        rw [List.filter_append]
        congr 1
        simp [BookingService.rereadPred, hnb2, newBookingOf]
      rw [hfil2]
      intro hnil
      have := congrArg List.length hnil
      simp at this

/-- The capacity-1 slot of the cancel-reopens scenario. -/
def slotOne : TimeSlot :=
  { id := 5, resourceId := 3, startTime := 600, endTime := 660,
    capacity := 1, isAvailable := true, price := none, createdAt := 0 }

/-- A store holding only `slotOne`, with no bookings. -/
def capOneDB : DB :=
  { timeSlots := [slotOne], bookings := [], nextId := 10, now := 100 }

/-- C5 witness: the cancel-reopens scenario run on the concrete capacity-1
slot store with user 7 booking and cancelling. -/
theorem cancel_reopens_capacity_one_slot_witness :
    ∃ db1 b1, BookingService.Create capOneDB 7 3 5 "" = .ok (db1, b1) ∧
      (∀ t ∈ db1.timeSlots, t.id = 5 → t.isAvailable = false) ∧
      ∃ db2, BookingService.Cancel db1 b1.id 7 = .ok db2 ∧
        (∀ b ∈ db2.bookings, b.id = b1.id → b.status = "cancelled") ∧
        activeCount db2 5 = 0 ∧
        (∀ t ∈ db2.timeSlots, t.id = 5 → t.isAvailable = true) ∧
        ∀ u2 n2, ∃ db3 b3,
          BookingService.Create db2 u2 3 5 n2 = .ok (db3, b3) :=
  cancel_reopens_capacity_one_slot capOneDB slotOne 7 3 5 ""
    (by decide) (by decide) (by decide) (by decide) (by decide) (by decide)
